/-
Verification of the sales-trend-analysis pipeline
(`complete_task6.py` and `render_results.py`).

The development shallowly embeds the pipeline:
 * raw CSV rows and their field-by-field coercion (`normalizeRow`,
   mirroring the loop body at complete_task6.py lines 107-120);
 * the date formatting `f"{year:04d}-{month:02d}-01"` (`formatDate`);
 * the loader (drop/recreate table, bulk insert of coerced rows);
 * the four catalog queries (monthly_revenue, monthly_revenue_2004,
   top3_months, monthly_nulls) as pure functions over the stored rows,
   with year/month extracted positionally from the `YYYY-MM-01` text;
 * the encoding-fallback loop over utf-8, latin-1, cp1252, iso-8859-1;
 * the presenter's empty-result handling in both scripts.

Numbers: SQLite REAL amounts are modelled as rationals; `ROUND(x, 2)`
is modelled as `round2` (half-up to 2 decimals).
-/
import Mathlib

namespace Task6

/-! ### Digits and the date format `f"{year:04d}-{month:02d}-01"` -/

/-- The ASCII digit character for `d` (expects `d < 10`). -/
def digitChar (d : Nat) : Char := Char.ofNat (48 + d)

/-- Most-significant-first decimal digits of `n`, empty for `0`;
`fuel` bounds the recursion and is enough as soon as `fuel ≥ n`. -/
def digitsAux : Nat → Nat → List Char
  | 0, _ => []
  | fuel + 1, n => if n = 0 then [] else digitsAux fuel (n / 10) ++ [digitChar (n % 10)]

/-- Decimal digit characters of `n` (as Python `str`/`%d` renders it). -/
def natDigits (n : Nat) : List Char :=
  if n = 0 then ['0'] else digitsAux (n + 1) n

/-- Python `%0wd` on a nonnegative value: left-pad the digits with zeros
to total width `w` (wider numbers are not truncated). -/
def padDigits (w : Nat) (n : Nat) : List Char :=
  List.replicate (w - (natDigits n).length) '0' ++ natDigits n

/-- Python `%0wd` on an `int`: the sign, when present, counts toward the
field width (`f"{-5:04d}" = "-005"`). -/
def intPadDigits (w : Nat) (n : Int) : List Char :=
  if n < 0 then '-' :: padDigits (w - 1) n.natAbs else padDigits w n.toNat

/-- `order_date = f"{year:04d}-{month:02d}-01"` (complete_task6.py line 113). -/
def formatDate (year month : Int) : String :=
  String.mk (intPadDigits 4 year ++ '-' :: (intPadDigits 2 month ++ ['-', '0', '1']))

/-! ### Raw rows and normalization

A raw CSV field is observed by the loop body only through `pd.notna`
and the subsequent cast, which either succeeds or throws.  So a field
that is cast with `int(...)`/`float(...)` is modelled as
`Option (Option τ)`: `none` is a missing value (`pd.notna` false),
`some none` is a present value whose cast throws, `some (some v)` a
present value casting to `v`.  `str(...)` never throws, so the
product-code field is just `Option String`. -/

structure RawRow where
  orderNumber : Option (Option Int)
  yearId : Option (Option Int)
  monthId : Option (Option Int)
  sales : Option (Option ℚ)
  productCode : Option String
deriving DecidableEq, Repr

/-- `int(row[c]) if pd.notna(row[c]) else None`: a missing field becomes
the stored NULL, a throwing cast fails the whole row. -/
def coerceOpt {α : Type} : Option (Option α) → Option (Option α)
  | none => some none
  | some none => none
  | some (some v) => some (some v)

/-- `int(row[c]) if pd.notna(row[c]) else d`: a missing field becomes the
default `d`, a throwing cast fails the whole row. -/
def coerceDflt {α : Type} (field : Option (Option α)) (d : α) : Option α :=
  match field with
  | none => some d
  | some none => none
  | some (some v) => some v

/-- A stored row of `online_sales(order_id, order_date, amount, product_id)`. -/
structure SalesRecord where
  order_id : Option Int
  order_date : String
  amount : Option ℚ
  product_id : Option String
deriving DecidableEq, Repr

/-- The `try` body at complete_task6.py lines 108-117: coerce the five
fields (year defaulting to 2003, month to 1), build `order_date`;
`none` when some cast throws and the row is skipped. -/
def normalizeRow (r : RawRow) : Option SalesRecord := do
  let oid ← coerceOpt r.orderNumber
  let y ← coerceDflt r.yearId 2003
  let m ← coerceDflt r.monthId 1
  let amt ← coerceOpt r.sales
  some ⟨oid, formatDate y m, amt, r.productCode⟩

/-- The ingestion loop over `df.iterrows()`: normalized records in input
order, plus the number of skipped-row warnings printed. -/
def ingest : List RawRow → List SalesRecord × Nat
  | [] => ([], 0)
  | r :: rs =>
    let rest := ingest rs
    match normalizeRow r with
    | some rec => (rec :: rest.1, rest.2)
    | none => (rest.1, rest.2 + 1)

/-- The rows actually inserted into `online_sales`. -/
def loadRecords (rows : List RawRow) : List SalesRecord := (ingest rows).1

/-- `create_database_and_import_data`, state-level view: any pre-existing
database file is unlinked and the table dropped and recreated, so the
prior store contents never reach the new table; the fresh table holds
exactly the normalized rows. -/
def create_database_and_import_data (prior : Option (List SalesRecord))
    (input : List RawRow) : List SalesRecord :=
  match prior with
  | some _ => loadRecords input
  | none => loadRecords input

/-! ### The catalog queries

`strftime('%Y', order_date)` and `strftime('%m', order_date)` on the
loader's fixed `YYYY-MM-01` text are positional extraction of the year
and month substrings; `GROUP BY year, month` partitions the rows by that
pair; `ROUND(x, 2)` is rounding half-up to 2 decimals; `ORDER BY` on the
extracted text columns is lexicographic string order. -/

/-- `ROUND(x, 2)`: round half-up at the second decimal. -/
def round2 (q : ℚ) : ℚ := ((q * 100 + 1 / 2).floor : ℚ) / 100

/-- `strftime('%Y', order_date)`: the 4-character year substring. -/
def yearOf (r : SalesRecord) : String := r.order_date.take 4

/-- `strftime('%m', order_date)`: the 2-character month substring. -/
def monthOf (r : SalesRecord) : String := (r.order_date.drop 5).take 2

/-- The `GROUP BY year, month` key of a stored row. -/
def dateKey (r : SalesRecord) : String × String := (yearOf r, monthOf r)

/-- `ORDER BY year, month` ascending on the extracted text columns. -/
def keyLe (a b : String × String) : Prop :=
  a.1 < b.1 ∨ (a.1 = b.1 ∧ a.2 ≤ b.2)

instance : DecidableRel keyLe := fun a b =>
  inferInstanceAs (Decidable (a.1 < b.1 ∨ (a.1 = b.1 ∧ a.2 ≤ b.2)))

instance : IsTotal (String × String) keyLe where
  total a b := by
    rcases lt_trichotomy a.1 b.1 with h | h | h
    · exact Or.inl (Or.inl h)
    · rcases le_total a.2 b.2 with h2 | h2
      · exact Or.inl (Or.inr ⟨h, h2⟩)
      · exact Or.inr (Or.inr ⟨h.symm, h2⟩)
    · exact Or.inr (Or.inl h)

instance : IsTrans (String × String) keyLe where
  trans a b c hab hbc := by
    rcases hab with h | ⟨he, h2⟩ <;> rcases hbc with h' | ⟨he', h2'⟩
    · exact Or.inl (h.trans h')
    · exact Or.inl (h.trans_le he'.le)
    · exact Or.inl (he.le.trans_lt h')
    · exact Or.inr ⟨he.trans he', h2.trans h2'⟩

/-- The distinct `(year, month)` groups of a store, first-occurrence order. -/
def groupKeys (store : List SalesRecord) : List (String × String) :=
  (store.map dateKey).dedup

/-- The groups in `ORDER BY year, month` order. -/
def sortedKeys (store : List SalesRecord) : List (String × String) :=
  List.insertionSort keyLe (groupKeys store)

/-- The rows of a `(year, month)` group. -/
def rowsFor (store : List SalesRecord) (k : String × String) : List SalesRecord :=
  store.filter fun r => decide (dateKey r = k)

/-- `COALESCE(amount, 0)`. -/
def amount0 (r : SalesRecord) : ℚ := r.amount.getD 0

/-- `SUM(COALESCE(amount, 0))` over a group. -/
def sumAmount0 (rs : List SalesRecord) : ℚ := (rs.map amount0).sum

/-- The non-NULL amounts of a group. -/
def presentAmounts (rs : List SalesRecord) : List ℚ := rs.filterMap (·.amount)

/-- `SUM(amount)` over a group: NULL when every amount is NULL, otherwise
the sum of the non-NULL amounts. -/
def sumSkipNulls (rs : List SalesRecord) : Option ℚ :=
  if presentAmounts rs = [] then none else some (presentAmounts rs).sum

/-- `COUNT(amount)` over a group: the number of non-NULL amounts. -/
def countAmount (rs : List SalesRecord) : Nat :=
  (rs.filter fun r => r.amount.isSome).length

/-- A result row of the `monthly_revenue` (and `monthly_revenue_2004`) query. -/
structure RevRow where
  year : String
  month : String
  monthly_revenue : ℚ
  order_count : Nat
deriving DecidableEq, Repr

/-- The `monthly_revenue` catalog query. -/
def monthly_revenue (store : List SalesRecord) : List RevRow :=
  (sortedKeys store).map fun k =>
    ⟨k.1, k.2, round2 (sumAmount0 (rowsFor store k)), (rowsFor store k).length⟩

/-- `ORDER BY month` ascending only (the `monthly_revenue_2004` ordering). -/
def monthOnlyLe (a b : String × String) : Prop := a.2 ≤ b.2

instance : DecidableRel monthOnlyLe := fun a b =>
  inferInstanceAs (Decidable (a.2 ≤ b.2))

/-- The `monthly_revenue_2004` catalog query: the same aggregation
restricted by `WHERE strftime('%Y', order_date) = '2004'`. -/
def monthly_revenue_2004 (store : List SalesRecord) : List RevRow :=
  let flt := store.filter fun r => decide (yearOf r = "2004")
  (List.insertionSort monthOnlyLe ((flt.map dateKey).dedup)).map fun k =>
    ⟨k.1, k.2, round2 (sumAmount0 (rowsFor flt k)), (rowsFor flt k).length⟩

/-- A row of the `monthly` common table expression in `top3_months`:
the group and its unrounded revenue. -/
structure CTERow where
  year : String
  month : String
  rev : ℚ
deriving DecidableEq, Repr

/-- The `monthly` common table expression of `top3_months`. -/
def monthlyCTE (store : List SalesRecord) : List CTERow :=
  (sortedKeys store).map fun k => ⟨k.1, k.2, sumAmount0 (rowsFor store k)⟩

/-- A result row of the `top3_months` query. -/
structure TopRow where
  year : String
  month : String
  monthly_revenue : ℚ
deriving DecidableEq, Repr

/-- The outer `SELECT year, month, ROUND(monthly_revenue, 2) AS
monthly_revenue` of `top3_months` before `ORDER BY`/`LIMIT`: the CTE
groups with their revenue rounded to 2 decimals. -/
def topRows (store : List SalesRecord) : List TopRow :=
  (monthlyCTE store).map fun t => TopRow.mk t.year t.month (round2 t.rev)

/-- `ORDER BY monthly_revenue DESC, year, month`: in SQLite the bare
name `monthly_revenue` resolves to the output-column alias, i.e. the
rounded `ROUND(monthly_revenue, 2)` column, so rows are ranked by
rounded revenue descending with ties broken by `(year, month)`
ascending. -/
def topOrd (a b : TopRow) : Prop :=
  b.monthly_revenue < a.monthly_revenue
  ∨ (a.monthly_revenue = b.monthly_revenue ∧ keyLe (a.year, a.month) (b.year, b.month))

instance : DecidableRel topOrd := fun a b =>
  inferInstanceAs (Decidable (b.monthly_revenue < a.monthly_revenue
    ∨ (a.monthly_revenue = b.monthly_revenue ∧ keyLe (a.year, a.month) (b.year, b.month))))

instance : IsTotal TopRow topOrd where
  total a b := by
    rcases lt_trichotomy a.monthly_revenue b.monthly_revenue with h | h | h
    · exact Or.inr (Or.inl h)
    · rcases total_of keyLe (a.year, a.month) (b.year, b.month) with hk | hk
      · exact Or.inl (Or.inr ⟨h, hk⟩)
      · exact Or.inr (Or.inr ⟨h.symm, hk⟩)
    · exact Or.inl (Or.inl h)

instance : IsTrans TopRow topOrd where
  trans a b c hab hbc := by
    rcases hab with h | ⟨he, hk⟩ <;> rcases hbc with h' | ⟨he', hk'⟩
    · exact Or.inl (h'.trans h)
    · exact Or.inl (he' ▸ h)
    · exact Or.inl (h'.trans_le he.ge)
    · exact Or.inr ⟨he.trans he', trans_of keyLe hk hk'⟩

/-- The `top3_months` catalog query: round the CTE revenues, sort the
result rows by the aliased rounded revenue descending (ties by group
ascending), keep 3 (`LIMIT 3`). -/
def top3_months (store : List SalesRecord) : List TopRow :=
  (List.insertionSort topOrd (topRows store)).take 3

/-- A result row of the `monthly_nulls` query (complete_task6.py form,
with both counts). -/
structure NullsRow where
  year : String
  month : String
  sum_skipping_nulls : Option ℚ
  sum_treating_nulls_as_zero : ℚ
  total_orders : Nat
  orders_with_amount : Nat
deriving DecidableEq, Repr

/-- The `monthly_nulls` catalog query: per group, `ROUND(SUM(amount), 2)`
(NULL when every amount is NULL), `ROUND(SUM(COALESCE(amount, 0)), 2)`,
`COUNT(*)` and `COUNT(amount)`. -/
def monthly_nulls (store : List SalesRecord) : List NullsRow :=
  (sortedKeys store).map fun k =>
    ⟨k.1, k.2, (sumSkipNulls (rowsFor store k)).map round2,
      round2 (sumAmount0 (rowsFor store k)),
      (rowsFor store k).length,
      countAmount (rowsFor store k)⟩

/-! ### The aggregator pass (for the frame property) -/

/-- The four catalog query names. -/
inductive QueryKey where
  | monthly_revenue
  | monthly_revenue_2004
  | top3_months
  | monthly_nulls
deriving DecidableEq, Repr

/-- The fixed catalog, in source order. -/
def catalog : List QueryKey :=
  [.monthly_revenue, .monthly_revenue_2004, .top3_months, .monthly_nulls]

/-- A rectangular result set handed to the presenter. -/
inductive ResultSet where
  | rev (rows : List RevRow)
  | top (rows : List TopRow)
  | nulls (rows : List NullsRow)
deriving DecidableEq, Repr

/-- Execute one catalog query: a `SELECT` reads the table and returns
its result set together with the table state it leaves behind. -/
def execQuery : QueryKey → List SalesRecord → ResultSet × List SalesRecord
  | .monthly_revenue, store => (.rev (monthly_revenue store), store)
  | .monthly_revenue_2004, store => (.rev (monthly_revenue_2004 store), store)
  | .top3_months, store => (.top (top3_months store), store)
  | .monthly_nulls, store => (.nulls (monthly_nulls store), store)

/-- The aggregator loop over the catalog, threading the table state. -/
def runCatalog : List QueryKey → List SalesRecord → List (QueryKey × ResultSet) × List SalesRecord
  | [], store => ([], store)
  | q :: qs, store =>
    let step := execQuery q store
    let rest := runCatalog qs step.2
    ((q, step.1) :: rest.1, rest.2)

/-! ### The presenter -/

/-- Observable presenter events: a console warning, or an image artifact
written to a path. -/
inductive RenderEvent where
  | warned (title : String)
  | saved (path : String)
deriving DecidableEq, Repr

/-- Is the event a warning? -/
def RenderEvent.isWarning : RenderEvent → Bool
  | .warned _ => true
  | .saved _ => false

/-- complete_task6.py `save_table_as_image`: an empty result set prints a
warning and returns before any figure is written. -/
def save_table_as_image {α : Type} (rows : List α) (out_path title : String) :
    List RenderEvent :=
  if rows.isEmpty then [.warned title] else [.saved out_path]

/-- The rendering loop of `run_queries_and_generate_screenshots`
(complete_task6.py lines 214-229): a nonempty result set is saved, an
empty one prints the no-data warning for that key, and the loop
continues with the remaining queries either way. -/
def run_queries_render {α : Type} : List (String × String × List α) → List RenderEvent
  | [] => []
  | (key, title, rows) :: rest =>
    (if rows.isEmpty then [RenderEvent.warned key]
     else save_table_as_image rows (key ++ ".png") title) ++ run_queries_render rest

/-- render_results.py `save_table_as_image`: no empty-result check, the
figure is written unconditionally. -/
def render_results_save {α : Type} (rows : List α) (out_path : String) :
    List RenderEvent :=
  let _ := rows
  [.saved out_path]

/-! ### The encoding-fallback loop -/

/-- An input byte. -/
abbrev Byte := Fin 256

/-- latin-1 decoding: every byte maps to the code point of the same
value; it cannot fail. -/
def latin1Decode (bs : List Byte) : Option (List Nat) :=
  some (bs.map (·.val))

/-- cp1252 decoding of one byte: the 0x80-0x9F block maps through the
Windows-1252 table, in which 0x81, 0x8D, 0x8F, 0x90 and 0x9D are
undefined and make decoding fail; every other byte maps to itself. -/
def cp1252Map (b : Nat) : Option Nat :=
  if b < 0x80 ∨ 0xA0 ≤ b then some b
  else if b = 0x80 then some 0x20AC
  else if b = 0x82 then some 0x201A
  else if b = 0x83 then some 0x192
  else if b = 0x84 then some 0x201E
  else if b = 0x85 then some 0x2026
  else if b = 0x86 then some 0x2020
  else if b = 0x87 then some 0x2021
  else if b = 0x88 then some 0x2C6
  else if b = 0x89 then some 0x2030
  else if b = 0x8A then some 0x160
  else if b = 0x8B then some 0x2039
  else if b = 0x8C then some 0x152
  else if b = 0x8E then some 0x17D
  else if b = 0x91 then some 0x2018
  else if b = 0x92 then some 0x2019
  else if b = 0x93 then some 0x201C
  else if b = 0x94 then some 0x201D
  else if b = 0x95 then some 0x2022
  else if b = 0x96 then some 0x2013
  else if b = 0x97 then some 0x2014
  else if b = 0x98 then some 0x2DC
  else if b = 0x99 then some 0x2122
  else if b = 0x9A then some 0x161
  else if b = 0x9B then some 0x203A
  else if b = 0x9C then some 0x153
  else if b = 0x9E then some 0x17E
  else if b = 0x9F then some 0x178
  else none

/-- cp1252 decoding of a byte sequence. -/
def cp1252Decode (bs : List Byte) : Option (List Nat) :=
  bs.mapM fun b => cp1252Map b.val

/-- Is the byte a UTF-8 continuation byte (`0x80..0xBF`)? -/
def isCont (b : Nat) : Bool := decide (0x80 ≤ b ∧ b < 0xC0)

/-- Strict UTF-8 decoding with fuel (enough as soon as `fuel` reaches
the input length): rejects stray continuation bytes, overlong forms,
surrogates and code points beyond `0x10FFFF`. -/
def utf8DecodeAux : Nat → List Nat → Option (List Nat)
  | 0, [] => some []
  | 0, _ :: _ => none
  | _ + 1, [] => some []
  | fuel + 1, b :: rest =>
    if b < 0x80 then (utf8DecodeAux fuel rest).map (b :: ·)
    else if b < 0xC2 then none
    else if b < 0xE0 then
      match rest with
      | b1 :: rest1 =>
        if isCont b1 then
          (utf8DecodeAux fuel rest1).map (((b - 0xC0) * 64 + (b1 - 0x80)) :: ·)
        else none
      | [] => none
    else if b < 0xF0 then
      match rest with
      | b1 :: b2 :: rest2 =>
        let cp := (b - 0xE0) * 4096 + (b1 - 0x80) * 64 + (b2 - 0x80)
        if isCont b1 && isCont b2 && decide (0x800 ≤ cp)
            && decide (cp < 0xD800 ∨ 0xE000 ≤ cp) then
          (utf8DecodeAux fuel rest2).map (cp :: ·)
        else none
      | _ => none
    else if b < 0xF5 then
      match rest with
      | b1 :: b2 :: b3 :: rest3 =>
        let cp := (b - 0xF0) * 0x40000 + (b1 - 0x80) * 4096
          + (b2 - 0x80) * 64 + (b3 - 0x80)
        if isCont b1 && isCont b2 && isCont b3 && decide (0x10000 ≤ cp)
            && decide (cp ≤ 0x10FFFF) then
          (utf8DecodeAux fuel rest3).map (cp :: ·)
        else none
      | _ => none
    else none

/-- utf-8 decoding of a byte sequence. -/
def utf8Decode (bs : List Byte) : Option (List Nat) :=
  utf8DecodeAux bs.length (bs.map (·.val))

/-- The fixed encoding priority list (complete_task6.py line 69), each
name paired with its decoder; iso-8859-1 decodes like latin-1. -/
def decoders : List (String × (List Byte → Option (List Nat))) :=
  [("utf-8", utf8Decode), ("latin-1", latin1Decode),
   ("cp1252", cp1252Decode), ("iso-8859-1", latin1Decode)]

/-- The encoding names, in the fixed priority order. -/
def encodings : List String := decoders.map (·.1)

/-- The `for encoding in encodings` loop: try each encoding in order,
catching the decode failure and continuing; `none` models reaching the
`raise Exception("Could not read CSV with any supported encoding")`
branch. -/
def tryEncodings (bs : List Byte) : Option (String × List Nat) :=
  decoders.findSome? fun p => (p.2 bs).map fun d => (p.1, d)

/-! ### Well-formedness of the stored date text -/

/-- Does the text have the shape `YYYY-MM-01`: four digit characters, a
dash, two digit characters, then the literal `-01`? -/
def dateWF (s : String) : Bool :=
  match s.data with
  | [c1, c2, c3, c4, d1, c5, c6, d2, c7, c8] =>
    c1.isDigit && c2.isDigit && c3.isDigit && c4.isDigit
      && decide (d1 = '-') && c5.isDigit && c6.isDigit && decide (d2 = '-')
      && decide (c7 = '0') && decide (c8 = '1')
  | _ => false

/-! ### Concrete sample inputs used by witnesses and counterexamples -/

/-- Three stored rows: two in 2004-01 (one with a NULL amount), one in
2004-02. -/
def sampleStore : List SalesRecord :=
  [⟨some 1, "2004-01-01", some (201 / 2), some "P"⟩,
   ⟨some 2, "2004-01-01", none, some "P"⟩,
   ⟨none, "2004-02-01", some 50, none⟩]

/-- One stored row whose amount, `0.001`, has more than two decimals. -/
def subCentStore : List SalesRecord :=
  [⟨some 1, "2004-01-01", some (1 / 1000), some "P"⟩]

/-- Four one-row groups whose revenues `0.004, 0, 0, 0` differ before
rounding but all round to `0.00`. -/
def roundTieStore : List SalesRecord :=
  [⟨some 1, "2005-01-01", some (1 / 250), some "A"⟩,
   ⟨some 2, "2003-01-01", some 0, some "B"⟩,
   ⟨some 3, "2003-02-01", some 0, some "C"⟩,
   ⟨some 4, "2003-03-01", some 0, some "D"⟩]

/-- A raw row whose order-number field is present but whose `int(...)`
cast throws, while amount, year and month coerce fine. -/
def unparseableIdRow : RawRow :=
  ⟨some none, some (some 2004), some (some 1), some (some 100), some "P"⟩

/-- A raw row whose order-number field is missing, while amount, year
and month coerce fine. -/
def absentIdRow : RawRow :=
  ⟨none, some (some 2004), some (some 1), some (some 100), some "P"⟩

/-- A raw row whose year field is present but whose `int(...)` cast
throws. -/
def badYearRow : RawRow := ⟨some (some 7), some none, none, none, none⟩

/-- A raw row with a five-digit year and every other field missing. -/
def hugeYearRow : RawRow := ⟨none, some (some 12345), none, none, none⟩

/-! ### Basic lemmas -/

theorem coerceOpt_eq_none_iff {α : Type} (f : Option (Option α)) :
    coerceOpt f = none ↔ f = some none := by
  rcases f with _ | o
  · simp [coerceOpt]
  · rcases o with _ | v <;> simp [coerceOpt]

theorem coerceDflt_eq_none_iff {α : Type} (f : Option (Option α)) (d : α) :
    coerceDflt f d = none ↔ f = some none := by
  rcases f with _ | o
  · simp [coerceDflt]
  · rcases o with _ | v <;> simp [coerceDflt]

theorem ingest_eq (rows : List RawRow) :
    ingest rows =
      (rows.filterMap normalizeRow, rows.countP fun r => (normalizeRow r).isNone) := by
  induction rows with
  | nil => rfl
  | cons r rs ih =>
    cases h : normalizeRow r <;>
      simp [ingest, ih, h, List.filterMap_cons, List.countP_cons]

theorem loadRecords_eq (rows : List RawRow) :
    loadRecords rows = rows.filterMap normalizeRow := by
  simp [loadRecords, ingest_eq]

theorem mem_rowsFor {store : List SalesRecord} {k : String × String} {r : SalesRecord} :
    r ∈ rowsFor store k ↔ r ∈ store ∧ dateKey r = k := by
  simp [rowsFor, List.mem_filter]

theorem rowsFor_append (s1 s2 : List SalesRecord) (k : String × String) :
    rowsFor (s1 ++ s2) k = rowsFor s1 k ++ rowsFor s2 k := by
  simp [rowsFor, List.filter_append]

theorem rowsFor_cons (r : SalesRecord) (s : List SalesRecord) (k : String × String) :
    rowsFor (r :: s) k = if dateKey r = k then r :: rowsFor s k else rowsFor s k := by
  by_cases h : dateKey r = k <;> simp [rowsFor, List.filter_cons, h]

theorem mem_sortedKeys {store : List SalesRecord} {k : String × String} :
    k ∈ sortedKeys store ↔ ∃ r ∈ store, dateKey r = k := by
  unfold sortedKeys groupKeys
  rw [List.Perm.mem_iff (List.perm_insertionSort keyLe _)]
  simp

theorem nodup_sortedKeys (store : List SalesRecord) : (sortedKeys store).Nodup := by
  unfold sortedKeys groupKeys
  exact (List.Perm.nodup_iff (List.perm_insertionSort keyLe _)).mpr (List.nodup_dedup _)

theorem sorted_sortedKeys (store : List SalesRecord) :
    List.Sorted keyLe (sortedKeys store) :=
  List.sorted_insertionSort keyLe _

theorem sumAmount0_append (s1 s2 : List SalesRecord) :
    sumAmount0 (s1 ++ s2) = sumAmount0 s1 + sumAmount0 s2 := by
  simp [sumAmount0]

theorem presentAmounts_append (s1 s2 : List SalesRecord) :
    presentAmounts (s1 ++ s2) = presentAmounts s1 ++ presentAmounts s2 := by
  simp [presentAmounts]

theorem sumAmount0_cons (r : SalesRecord) (s : List SalesRecord) :
    sumAmount0 (r :: s) = amount0 r + sumAmount0 s := by
  simp [sumAmount0]

theorem presentAmounts_cons_some {r : SalesRecord} {a : ℚ} (h : r.amount = some a)
    (s : List SalesRecord) : presentAmounts (r :: s) = a :: presentAmounts s := by
  simp [presentAmounts, h]

theorem sumSkipNulls_eq_none_iff (rs : List SalesRecord) :
    sumSkipNulls rs = none ↔ ∀ r ∈ rs, r.amount = none := by
  simp [sumSkipNulls, presentAmounts, List.filterMap_eq_nil_iff]

theorem sumSkipNulls_eq_some (rs : List SalesRecord) (s : ℚ)
    (h : sumSkipNulls rs = some s) : s = (presentAmounts rs).sum := by
  unfold sumSkipNulls at h
  split at h
  · exact absurd h (by simp)
  · exact (Option.some_inj.mp h).symm

theorem countAmount_le (rs : List SalesRecord) : countAmount rs ≤ rs.length :=
  List.length_filter_le _ _

theorem countAmount_lt_iff (rs : List SalesRecord) :
    countAmount rs < rs.length ↔ ∃ r ∈ rs, r.amount = none := by
  induction rs with
  | nil => simp [countAmount]
  | cons r rs ih =>
    cases h : r.amount with
    | none =>
      have hle := countAmount_le rs
      simp only [countAmount, List.filter_cons, h, Option.isSome_none] at ih ⊢
      simp only [Bool.false_eq_true, if_false, List.length_cons]
      constructor
      · intro _
        exact ⟨r, List.mem_cons_self .., h⟩
      · intro _
        exact Nat.lt_succ_of_le hle
    | some a =>
      simp only [countAmount, List.filter_cons, h, Option.isSome_some, if_true,
        List.length_cons, Nat.succ_lt_succ_iff] at ih ⊢
      rw [ih]
      constructor
      · rintro ⟨x, hx, hxa⟩
        exact ⟨x, List.mem_cons_of_mem _ hx, hxa⟩
      · rintro ⟨x, hx, hxa⟩
        rcases List.mem_cons.mp hx with rfl | hx
        · exact absurd hxa (by simp [h])
        · exact ⟨x, hx, hxa⟩

theorem monthly_revenue_keys (store : List SalesRecord) :
    ((monthly_revenue store).map fun row => (row.year, row.month)) = sortedKeys store := by
  simp [monthly_revenue, List.map_map, Function.comp_def]

theorem monthly_nulls_keys (store : List SalesRecord) :
    ((monthly_nulls store).map fun row => (row.year, row.month)) = sortedKeys store := by
  simp [monthly_nulls, List.map_map, Function.comp_def]

theorem mem_monthly_revenue {store : List SalesRecord} {row : RevRow} :
    row ∈ monthly_revenue store ↔
      ∃ k ∈ sortedKeys store,
        row = RevRow.mk k.1 k.2 (round2 (sumAmount0 (rowsFor store k)))
          (rowsFor store k).length := by
  simp [monthly_revenue, List.mem_map, eq_comm]

theorem mem_monthly_nulls {store : List SalesRecord} {row : NullsRow} :
    row ∈ monthly_nulls store ↔
      ∃ k ∈ sortedKeys store,
        row = NullsRow.mk k.1 k.2 ((sumSkipNulls (rowsFor store k)).map round2)
          (round2 (sumAmount0 (rowsFor store k))) (rowsFor store k).length
          (countAmount (rowsFor store k)) := by
  simp [monthly_nulls, List.mem_map, eq_comm]

theorem mem_monthlyCTE {store : List SalesRecord} {t : CTERow} :
    t ∈ monthlyCTE store ↔
      ∃ k ∈ sortedKeys store, t = CTERow.mk k.1 k.2 (sumAmount0 (rowsFor store k)) := by
  simp [monthlyCTE, List.mem_map, eq_comm]

theorem monthlyCTE_rev {store : List SalesRecord} {t : CTERow} (h : t ∈ monthlyCTE store) :
    t.rev = sumAmount0 (rowsFor store (t.year, t.month)) := by
  rcases mem_monthlyCTE.mp h with ⟨k, hk, rfl⟩
  rfl

theorem mem_topRows {store : List SalesRecord} {t : TopRow} :
    t ∈ topRows store ↔
      ∃ k ∈ sortedKeys store,
        t = TopRow.mk k.1 k.2 (round2 (sumAmount0 (rowsFor store k))) := by
  constructor
  · intro ht
    rcases List.mem_map.mp ht with ⟨a, ha, rfl⟩
    rcases mem_monthlyCTE.mp ha with ⟨k, hk, rfl⟩
    exact ⟨k, hk, rfl⟩
  · rintro ⟨k, hk, rfl⟩
    exact List.mem_map.mpr ⟨CTERow.mk k.1 k.2 (sumAmount0 (rowsFor store k)),
      mem_monthlyCTE.mpr ⟨k, hk, rfl⟩, rfl⟩

theorem topRows_rev {store : List SalesRecord} {t : TopRow} (h : t ∈ topRows store) :
    t.monthly_revenue = round2 (sumAmount0 (rowsFor store (t.year, t.month))) := by
  rcases mem_topRows.mp h with ⟨k, hk, rfl⟩
  rfl

/-- C4: `monthly_revenue` groups all rows by the `(year, month)` extracted
from `order_date` and returns, per group, the rounded zero-coalesced
amount sum and the row count, one row per group, ordered ascending by
`(year, month)`. -/
theorem c4_monthly_revenue (store : List SalesRecord) :
    ((monthly_revenue store).map fun row => (row.year, row.month)).Nodup
    ∧ (∀ k : String × String,
        (k ∈ (monthly_revenue store).map fun row => (row.year, row.month)) ↔
          ∃ r ∈ store, dateKey r = k)
    ∧ (∀ row ∈ monthly_revenue store,
        row.monthly_revenue = round2 (sumAmount0 (rowsFor store (row.year, row.month)))
        ∧ row.order_count = (rowsFor store (row.year, row.month)).length)
    ∧ List.Sorted (fun a b : RevRow => keyLe (a.year, a.month) (b.year, b.month))
        (monthly_revenue store) := by
  refine ⟨?_, ?_, ?_, ?_⟩
  · rw [monthly_revenue_keys]
    exact nodup_sortedKeys store
  · intro k
    rw [monthly_revenue_keys]
    exact mem_sortedKeys
  · intro row hrow
    rcases mem_monthly_revenue.mp hrow with ⟨k, hk, rfl⟩
    exact ⟨rfl, rfl⟩
  · unfold monthly_revenue
    exact (sorted_sortedKeys store).map _ (fun a b hab => hab)

/-- C4 witness: on the three-row sample store the 2004-01 group row is
returned with the rounded sum `100.5` and count `2`. -/
theorem c4_monthly_revenue_witness :
    RevRow.mk "2004" "01" (201 / 2) 2 ∈ monthly_revenue sampleStore
    ∧ (RevRow.mk "2004" "01" (201 / 2) 2).monthly_revenue
        = round2 (sumAmount0 (rowsFor sampleStore ("2004", "01"))) := by
  have hmem : RevRow.mk "2004" "01" (201 / 2) 2 ∈ monthly_revenue sampleStore := by
    with_unfolding_all decide
  exact ⟨hmem, ((c4_monthly_revenue sampleStore).2.2.1 _ hmem).1⟩

/-- C2 (amended): `monthly_nulls` returns one row per `(year, month)`
group; per row, `sum_skipping_nulls` is the sum of the present amounts
rounded to 2 decimals and is absent exactly when every amount in the
group is absent, `sum_treating_nulls_as_zero` is the zero-coalesced sum
rounded to 2 decimals, `total_orders` is the row count,
`orders_with_amount` is the present-amount count, and
`orders_with_amount < total_orders` exactly when the group has a row
with an absent amount. -/
theorem c2_monthly_nulls (store : List SalesRecord) :
    ((monthly_nulls store).map fun row => (row.year, row.month)).Nodup
    ∧ (∀ k : String × String,
        (k ∈ (monthly_nulls store).map fun row => (row.year, row.month)) ↔
          ∃ r ∈ store, dateKey r = k)
    ∧ (∀ row ∈ monthly_nulls store,
        (row.sum_skipping_nulls = none ↔
          ∀ r ∈ rowsFor store (row.year, row.month), r.amount = none)
        ∧ (∀ s, row.sum_skipping_nulls = some s →
            s = round2 (presentAmounts (rowsFor store (row.year, row.month))).sum)
        ∧ row.sum_treating_nulls_as_zero
            = round2 (sumAmount0 (rowsFor store (row.year, row.month)))
        ∧ row.total_orders = (rowsFor store (row.year, row.month)).length
        ∧ row.orders_with_amount = countAmount (rowsFor store (row.year, row.month))
        ∧ (row.orders_with_amount < row.total_orders ↔
            ∃ r ∈ rowsFor store (row.year, row.month), r.amount = none)) := by
  refine ⟨?_, ?_, ?_⟩
  · rw [monthly_nulls_keys]
    exact nodup_sortedKeys store
  · intro k
    rw [monthly_nulls_keys]
    exact mem_sortedKeys
  · intro row hrow
    rcases mem_monthly_nulls.mp hrow with ⟨k, hk, rfl⟩
    refine ⟨?_, ?_, rfl, rfl, rfl, ?_⟩
    · show (sumSkipNulls (rowsFor store k)).map round2 = none ↔ _
      rw [Option.map_eq_none']
      exact sumSkipNulls_eq_none_iff _
    · intro s hs
      show s = round2 (presentAmounts (rowsFor store k)).sum
      rcases Option.map_eq_some'.mp hs with ⟨s0, hs0, rfl⟩
      rw [sumSkipNulls_eq_some _ _ hs0]
    · show countAmount (rowsFor store k) < (rowsFor store k).length ↔ _
      exact countAmount_lt_iff _

/-- C2 counterexample: a single row with amount `0.001` is reported with
`sum_skipping_nulls = 0` (the rounded sum), not the exact present-amount
sum `0.001` the claim asserts. -/
theorem c2_counterexample :
    monthly_nulls subCentStore = [NullsRow.mk "2004" "01" (some 0) 0 1 1]
    ∧ (presentAmounts (rowsFor subCentStore ("2004", "01"))).sum = 1 / 1000
    ∧ ((0 : ℚ) = 1 / 1000 → False) := by
  set_option maxRecDepth 4000 in
  refine ⟨?_, ?_, ?_⟩ <;> with_unfolding_all decide

/-- C2 witness: on the sample store, the 2004-01 group (one NULL amount
among two rows) satisfies the amended row contract, in particular
`orders_with_amount = 1 < 2 = total_orders` exactly because the group
has an absent-amount row. -/
theorem c2_monthly_nulls_witness :
    NullsRow.mk "2004" "01" (some (201 / 2)) (201 / 2) 2 1 ∈ monthly_nulls sampleStore
    ∧ ((NullsRow.mk "2004" "01" (some (201 / 2)) (201 / 2) 2 1).orders_with_amount
        < (NullsRow.mk "2004" "01" (some (201 / 2)) (201 / 2) 2 1).total_orders ↔
        ∃ r ∈ rowsFor sampleStore ("2004", "01"), r.amount = none) := by
  have hmem : NullsRow.mk "2004" "01" (some (201 / 2)) (201 / 2) 2 1 ∈ monthly_nulls sampleStore := by
    with_unfolding_all decide
  exact ⟨hmem, ((c2_monthly_nulls sampleStore).2.2 _ hmem).2.2.2.2.2⟩

/-- C3 (amended): `top3_months` returns at most 3 rows, each carrying
its group revenue rounded to 2 decimals; rows are ranked by the rounded
revenue (the `ORDER BY monthly_revenue` name resolves to the output
alias `ROUND(monthly_revenue, 2)`) descending with ties broken by
`(year, month)` ascending; every row matches a `monthly_revenue` group
with the same rounded revenue; and every group left out ranks no better
under that rounded order than any returned row. -/
theorem c3_top3_months (store : List SalesRecord) :
    (top3_months store).length ≤ 3
    ∧ (∀ t ∈ top3_months store,
        t.monthly_revenue = round2 (sumAmount0 (rowsFor store (t.year, t.month)))
        ∧ ∃ row ∈ monthly_revenue store,
            row.year = t.year ∧ row.month = t.month
            ∧ row.monthly_revenue = t.monthly_revenue)
    ∧ List.Sorted topOrd (top3_months store)
    ∧ (∀ t ∈ top3_months store, ∀ u ∈ topRows store,
        ((u.year, u.month) ∉ (top3_months store).map fun v => (v.year, v.month)) →
        topOrd t u) := by
  have hperm : List.Perm (List.insertionSort topOrd (topRows store)) (topRows store) :=
    List.perm_insertionSort topOrd _
  have hsort : List.Sorted topOrd (List.insertionSort topOrd (topRows store)) :=
    List.sorted_insertionSort topOrd _
  have htop : top3_months store = (List.insertionSort topOrd (topRows store)).take 3 := rfl
  refine ⟨?_, ?_, ?_, ?_⟩
  · rw [htop, List.length_take]
    exact Nat.min_le_left _ _
  · intro t ht
    rw [htop] at ht
    have htmem : t ∈ topRows store := hperm.subset (List.mem_of_mem_take ht)
    refine ⟨topRows_rev htmem, ?_⟩
    rcases mem_topRows.mp htmem with ⟨k, hk, rfl⟩
    exact ⟨RevRow.mk k.1 k.2 (round2 (sumAmount0 (rowsFor store k)))
      (rowsFor store k).length, mem_monthly_revenue.mpr ⟨k, hk, rfl⟩, rfl, rfl, rfl⟩
  · rw [htop]
    exact List.Pairwise.sublist (List.take_sublist 3 _) hsort
  · intro t ht u hu hnot
    rw [htop] at ht
    have hul : u ∈ List.insertionSort topOrd (topRows store) := hperm.mem_iff.mpr hu
    have hsplit : u ∈ (List.insertionSort topOrd (topRows store)).take 3
        ∨ u ∈ (List.insertionSort topOrd (topRows store)).drop 3 := by
      rw [← List.mem_append, List.take_append_drop]
      exact hul
    rcases hsplit with hu3 | hu3
    · exact absurd (by
        rw [htop]
        exact List.mem_map.mpr ⟨u, hu3, rfl⟩) hnot
    · have hsort2 : List.Pairwise topOrd
          ((List.insertionSort topOrd (topRows store)).take 3
            ++ (List.insertionSort topOrd (topRows store)).drop 3) := by
        rw [List.take_append_drop]
        exact hsort
      exact (List.pairwise_append.mp hsort2).2.2 t ht u hu3

/-- C3 counterexample: with group revenues `0.004` (2005-01) and `0`
(2003-01, 2003-02, 2003-03), all rounding to `0.00`, the query ranks by
the rounded alias and breaks the four-way tie by `(year, month)`, so it
returns the three 2003 groups and drops the group with the strictly
greatest revenue -- refuting ranking by unrounded revenue. -/
theorem c3_counterexample :
    top3_months roundTieStore
      = [TopRow.mk "2003" "01" 0, TopRow.mk "2003" "02" 0, TopRow.mk "2003" "03" 0]
    ∧ ("2005", "01") ∈ sortedKeys roundTieStore
    ∧ sumAmount0 (rowsFor roundTieStore ("2005", "01")) = 1 / 250
    ∧ sumAmount0 (rowsFor roundTieStore ("2003", "01"))
        < sumAmount0 (rowsFor roundTieStore ("2005", "01"))
    ∧ TopRow.mk "2005" "01" 0 ∉ top3_months roundTieStore := by
  set_option maxRecDepth 4000 in
  refine ⟨?_, ?_, ?_, ?_, ?_⟩ <;> with_unfolding_all decide

/-- C3 witness: on the sample store the top rows are `(2004, 01)` with
`100.5` and `(2004, 02)` with `50`, and the first matches the
`monthly_revenue` group row. -/
theorem c3_top3_months_witness :
    TopRow.mk "2004" "01" (201 / 2) ∈ top3_months sampleStore
    ∧ ∃ row ∈ monthly_revenue sampleStore,
        row.year = (TopRow.mk "2004" "01" (201 / 2)).year
        ∧ row.month = (TopRow.mk "2004" "01" (201 / 2)).month
        ∧ row.monthly_revenue = (TopRow.mk "2004" "01" (201 / 2)).monthly_revenue := by
  have hmem : TopRow.mk "2004" "01" (201 / 2) ∈ top3_months sampleStore := by
    with_unfolding_all decide
  exact ⟨hmem, ((c3_top3_months sampleStore).2.1 _ hmem).2⟩

/-- C1 (amended): a raw row whose order-number field is missing, while
amount, year and month coerce, is normalized with `order_id` absent,
inserted, and contributes its amount to the group sums (both the
zero-coalesced and the NULL-skipping one) and one row to the group
counts of every amount-based aggregate. -/
theorem c1_absent_order_id (pre post : List RawRow) (r : RawRow) (y m : Int) (a : ℚ)
    (rec : SalesRecord) (store : List SalesRecord)
    (ho : r.orderNumber = none)
    (hy : coerceDflt r.yearId 2003 = some y)
    (hm : coerceDflt r.monthId 1 = some m)
    (ha : r.sales = some (some a))
    (hrec : rec = SalesRecord.mk none (formatDate y m) (some a) r.productCode)
    (hstore : store = loadRecords (pre ++ r :: post)) :
    normalizeRow r = some rec
    ∧ store = loadRecords pre ++ rec :: loadRecords post
    ∧ rec ∈ store
    ∧ rec.order_id = none
    ∧ dateKey rec ∈ sortedKeys store
    ∧ sumAmount0 (rowsFor store (dateKey rec))
        = sumAmount0 (rowsFor (loadRecords pre) (dateKey rec)) + a
          + sumAmount0 (rowsFor (loadRecords post) (dateKey rec))
    ∧ (presentAmounts (rowsFor store (dateKey rec))).sum
        = (presentAmounts (rowsFor (loadRecords pre) (dateKey rec))).sum + a
          + (presentAmounts (rowsFor (loadRecords post) (dateKey rec))).sum
    ∧ (rowsFor store (dateKey rec)).length
        = (rowsFor (loadRecords pre) (dateKey rec)).length + 1
          + (rowsFor (loadRecords post) (dateKey rec)).length
    ∧ countAmount (rowsFor store (dateKey rec))
        = countAmount (rowsFor (loadRecords pre) (dateKey rec)) + 1
          + countAmount (rowsFor (loadRecords post) (dateKey rec))
    ∧ sumSkipNulls (rowsFor store (dateKey rec)) ≠ none := by
  subst hrec
  have hnorm : normalizeRow r
      = some (SalesRecord.mk none (formatDate y m) (some a) r.productCode) := by
    simp [normalizeRow, ho, hy, hm, ha, coerceOpt]
  have hdecomp : store
      = loadRecords pre ++ SalesRecord.mk none (formatDate y m) (some a) r.productCode
        :: loadRecords post := by
    rw [hstore, loadRecords_eq, List.filterMap_append, List.filterMap_cons, hnorm,
      loadRecords_eq, loadRecords_eq]
  set rec := SalesRecord.mk none (formatDate y m) (some a) r.productCode with hrec
  have hrows : rowsFor store (dateKey rec)
      = rowsFor (loadRecords pre) (dateKey rec)
        ++ rec :: rowsFor (loadRecords post) (dateKey rec) := by
    rw [hdecomp, rowsFor_append, rowsFor_cons, if_pos rfl]
  refine ⟨hnorm, hdecomp, ?_, rfl, ?_, ?_, ?_, ?_, ?_, ?_⟩
  · rw [hdecomp]
    exact List.mem_append_right _ (List.mem_cons_self _ _)
  · refine mem_sortedKeys.mpr ⟨rec, ?_, rfl⟩
    rw [hdecomp]
    exact List.mem_append_right _ (List.mem_cons_self _ _)
  · rw [hrows, sumAmount0_append, sumAmount0_cons]
    have hra : amount0 rec = a := rfl
    rw [hra]
    ring
  · rw [hrows, presentAmounts_append, presentAmounts_cons_some rfl,
      List.sum_append, List.sum_cons]
    ring
  · rw [hrows, List.length_append, List.length_cons]
    omega
  · rw [hrows]
    unfold countAmount
    rw [List.filter_append, List.length_append, List.filter_cons]
    show _ + (List.length (rec :: _)) = _
    rw [List.length_cons]
    omega
  · intro hnone
    have := (sumSkipNulls_eq_none_iff _).mp hnone rec (by
      rw [hrows]
      exact List.mem_append_right _ (List.mem_cons_self _ _))
    simp [hrec] at this

/-- C1 counterexample: a raw row whose order-number field is present but
unparseable as an integer (while amount, year and month coerce) is
skipped entirely, so nothing is inserted and `monthly_revenue` over the
resulting store is empty — the row contributes to no aggregate. -/
theorem c1_counterexample :
    normalizeRow unparseableIdRow = none
    ∧ loadRecords [unparseableIdRow] = []
    ∧ monthly_revenue (loadRecords [unparseableIdRow]) = []
    ∧ monthly_nulls (loadRecords [unparseableIdRow]) = [] := by
  exact ⟨rfl, rfl, rfl, rfl⟩

/-- C1 witness: the absent-order-number row with amount 100 is inserted
alone and its group sum is `0 + 100 + 0`. -/
theorem c1_absent_order_id_witness :
    absentIdRow.orderNumber = none
    ∧ normalizeRow absentIdRow
        = some (SalesRecord.mk none (formatDate 2004 1) (some 100) (some "P"))
    ∧ sumAmount0 (rowsFor (loadRecords [absentIdRow])
        (dateKey (SalesRecord.mk none (formatDate 2004 1) (some 100) (some "P"))))
      = sumAmount0 (rowsFor (loadRecords []) (dateKey
          (SalesRecord.mk none (formatDate 2004 1) (some 100) (some "P")))) + 100
        + sumAmount0 (rowsFor (loadRecords []) (dateKey
          (SalesRecord.mk none (formatDate 2004 1) (some 100) (some "P")))) := by
  have h := c1_absent_order_id [] [] absentIdRow 2004 1 100
    (SalesRecord.mk none (formatDate 2004 1) (some 100) (some "P"))
    (loadRecords [absentIdRow]) rfl rfl rfl rfl rfl rfl
  exact ⟨rfl, h.1, h.2.2.2.2.2.1⟩

/-- C6: a raw row whose field coercion throws is skipped with exactly
one extra warning and does not abort ingestion: the loaded records are
those of the surrounding rows, unchanged. -/
theorem c6_skip_bad_row (pre post : List RawRow) (bad : RawRow)
    (h : normalizeRow bad = none) :
    ingest (pre ++ bad :: post)
      = ((ingest pre).1 ++ (ingest post).1, (ingest pre).2 + (ingest post).2 + 1)
    ∧ loadRecords (pre ++ bad :: post) = loadRecords pre ++ loadRecords post := by
  constructor
  · rw [ingest_eq, ingest_eq, ingest_eq]
    simp only [List.filterMap_append, List.filterMap_cons, h, List.countP_append,
      List.countP_cons, Option.isNone_none, if_pos, Prod.mk.injEq]
    exact ⟨trivial, by omega⟩
  · rw [loadRecords_eq, loadRecords_eq, loadRecords_eq, List.filterMap_append,
      List.filterMap_cons, h]

/-- C6 witness: the row whose year cast throws is skipped with one
warning and the store built from it alone is empty. -/
theorem c6_skip_bad_row_witness :
    normalizeRow badYearRow = none
    ∧ ingest [badYearRow] = ([], 1)
    ∧ loadRecords [badYearRow] = loadRecords [] ++ loadRecords [] := by
  refine ⟨rfl, ?_, (c6_skip_bad_row [] [] badYearRow rfl).2⟩
  exact (c6_skip_bad_row [] [] badYearRow rfl).1

/-- C7: the pipeline's output store is independent of any pre-existing
database state (the file is unlinked and the table dropped and
recreated), so two runs on identical input agree on the store, its row
count, and all four catalog query results. -/
theorem c7_idempotent (prior1 prior2 : Option (List SalesRecord)) (input : List RawRow) :
    create_database_and_import_data prior1 input = create_database_and_import_data prior2 input
    ∧ (create_database_and_import_data prior1 input).length
        = (create_database_and_import_data prior2 input).length
    ∧ monthly_revenue (create_database_and_import_data prior1 input)
        = monthly_revenue (create_database_and_import_data prior2 input)
    ∧ monthly_revenue_2004 (create_database_and_import_data prior1 input)
        = monthly_revenue_2004 (create_database_and_import_data prior2 input)
    ∧ top3_months (create_database_and_import_data prior1 input)
        = top3_months (create_database_and_import_data prior2 input)
    ∧ monthly_nulls (create_database_and_import_data prior1 input)
        = monthly_nulls (create_database_and_import_data prior2 input) := by
  cases prior1 <;> cases prior2 <;> exact ⟨rfl, rfl, rfl, rfl, rfl, rfl⟩

/-- C8 (amended): in complete_task6.py, a catalog query with an empty
result set makes the loop emit the no-data warning and produce no
artifact, and rendering of the surrounding queries proceeds unchanged;
`save_table_as_image` itself also warns and stops on an empty result. -/
theorem c8_empty_result (α : Type) (pre post : List (String × String × List α))
    (key title : String) :
    run_queries_render (pre ++ (key, title, ([] : List α)) :: post)
      = run_queries_render pre ++ RenderEvent.warned key :: run_queries_render post
    ∧ save_table_as_image ([] : List α) (key ++ ".png") title
        = [RenderEvent.warned title] := by
  constructor
  · have happ : ∀ l1 l2 : List (String × String × List α),
        run_queries_render (l1 ++ l2) = run_queries_render l1 ++ run_queries_render l2 := by
      intro l1 l2
      induction l1 with
      | nil => rfl
      | cons e l1 ih =>
        rcases e with ⟨k, ti, rows⟩
        simp [run_queries_render, ih]
    rw [happ]
    simp [run_queries_render]
  · rfl

/-- C8 counterexample: render_results.py's renderer has no empty-result
check — on an empty result set it emits no warning and goes straight to
writing the figure. -/
theorem c8_counterexample :
    render_results_save ([] : List NullsRow) "monthly_nulls.png"
      = [RenderEvent.saved "monthly_nulls.png"]
    ∧ (render_results_save ([] : List NullsRow) "monthly_nulls.png").all
        (fun e => !e.isWarning) = true := by
  exact ⟨rfl, rfl⟩

/-- C9: the encoding-trial loop always succeeds, with either utf-8 or
latin-1 (the second entry of the fixed priority list), because latin-1
decodes every byte sequence; the no-usable-encoding failure branch is
unreachable on decoding grounds. -/
theorem c9_encoding_loop_total (bs : List Byte) :
    (tryEncodings bs).isSome = true
    ∧ (latin1Decode bs).isSome = true
    ∧ encodings[1]? = some "latin-1"
    ∧ ∃ d, tryEncodings bs = some ("utf-8", d) ∨ tryEncodings bs = some ("latin-1", d) := by
  rcases h : utf8Decode bs with _ | d
  · have ht : tryEncodings bs = some ("latin-1", bs.map (·.val)) := by
      simp [tryEncodings, decoders, List.findSome?, h, latin1Decode]
    exact ⟨by simp [ht], rfl, rfl, bs.map (·.val), Or.inr ht⟩
  · have ht : tryEncodings bs = some ("utf-8", d) := by
      simp [tryEncodings, decoders, List.findSome?, h]
    exact ⟨by simp [ht], rfl, rfl, d, Or.inl ht⟩

/-- C10: every catalog query is read-only — running any sequence of
catalog queries leaves the table exactly as the loader filled it. -/
theorem c10_queries_readonly (qs : List QueryKey) (store : List SalesRecord)
    (prior : Option (List SalesRecord)) (input : List RawRow) :
    (runCatalog qs store).2 = store
    ∧ (runCatalog catalog (create_database_and_import_data prior input)).2
        = loadRecords input := by
  have hgen : ∀ (qs : List QueryKey) (s : List SalesRecord), (runCatalog qs s).2 = s := by
    intro qs
    induction qs with
    | nil => intro s; rfl
    | cons q qs ih =>
      intro s
      cases q <;> simp [runCatalog, execQuery, ih]
  refine ⟨hgen qs store, ?_⟩
  rw [hgen]
  cases prior <;> rfl

theorem digitChar_isDigit (d : Nat) (h : d < 10) : (digitChar d).isDigit = true := by
  interval_cases d <;> decide

theorem digitsAux_all_digit :
    ∀ (fuel n : Nat), ∀ c ∈ digitsAux fuel n, c.isDigit = true := by
  intro fuel
  induction fuel with
  | zero =>
    intro n c hc
    simp [digitsAux] at hc
  | succ fuel ih =>
    intro n c hc
    by_cases h : n = 0
    · simp [digitsAux, h] at hc
    · simp only [digitsAux, h, if_false] at hc
      rcases List.mem_append.mp hc with h1 | h1
      · exact ih _ _ h1
      · rcases List.mem_singleton.mp h1 with rfl
        exact digitChar_isDigit _ (Nat.mod_lt _ (by omega))

theorem digitsAux_length :
    ∀ (k fuel n : Nat), n < 10 ^ k → (digitsAux fuel n).length ≤ k := by
  intro k
  induction k with
  | zero =>
    intro fuel n h
    interval_cases n
    cases fuel <;> simp [digitsAux]
  | succ k ih =>
    intro fuel n h
    cases fuel with
    | zero => simp [digitsAux]
    | succ fuel =>
      by_cases hn : n = 0
      · simp [digitsAux, hn]
      · simp only [digitsAux, hn, if_false, List.length_append, List.length_singleton]
        have hdiv : n / 10 < 10 ^ k := by
          rw [Nat.div_lt_iff_lt_mul (by norm_num)]
          calc n < 10 ^ (k + 1) := h
          _ = 10 ^ k * 10 := by ring
        have := ih fuel (n / 10) hdiv
        omega

theorem natDigits_all_digit (n : Nat) : ∀ c ∈ natDigits n, c.isDigit = true := by
  unfold natDigits
  split
  · intro c hc
    rcases List.mem_singleton.mp hc with rfl
    decide
  · exact digitsAux_all_digit _ _

theorem natDigits_length_le (k n : Nat) (h : n < 10 ^ k) (hk : 1 ≤ k) :
    (natDigits n).length ≤ k := by
  unfold natDigits
  split
  · simpa using hk
  · exact digitsAux_length k _ n h

theorem padDigits_length (w n : Nat) (h : (natDigits n).length ≤ w) :
    (padDigits w n).length = w := by
  simp only [padDigits, List.length_append, List.length_replicate]
  omega

theorem padDigits_all_digit (w n : Nat) : ∀ c ∈ padDigits w n, c.isDigit = true := by
  intro c hc
  rcases List.mem_append.mp hc with h1 | h1
  · rcases List.eq_of_mem_replicate h1 with rfl
    decide
  · exact natDigits_all_digit n c h1

theorem list_of_length_four (l : List Char) (h : l.length = 4) :
    ∃ a b c d, l = [a, b, c, d] := by
  rcases l with _ | ⟨a, l⟩
  · simp at h
  rcases l with _ | ⟨b, l⟩
  · simp at h
  rcases l with _ | ⟨c, l⟩
  · simp at h
  rcases l with _ | ⟨d, l⟩
  · simp at h
  rcases l with _ | ⟨e, l⟩
  · exact ⟨a, b, c, d, rfl⟩
  · simp at h

theorem list_of_length_two (l : List Char) (h : l.length = 2) :
    ∃ a b, l = [a, b] := by
  rcases l with _ | ⟨a, l⟩
  · simp at h
  rcases l with _ | ⟨b, l⟩
  · simp at h
  rcases l with _ | ⟨c, l⟩
  · exact ⟨a, b, rfl⟩
  · simp at h

theorem dateWF_formatDate (y m : Int) (hy0 : 0 ≤ y) (hy1 : y ≤ 9999)
    (hm0 : 0 ≤ m) (hm1 : m ≤ 99) : dateWF (formatDate y m) = true := by
  have hy' : intPadDigits 4 y = padDigits 4 y.toNat := by
    simp [intPadDigits, not_lt.mpr hy0]
  have hm' : intPadDigits 2 m = padDigits 2 m.toNat := by
    simp [intPadDigits, not_lt.mpr hm0]
  have hylen : (padDigits 4 y.toNat).length = 4 := by
    refine padDigits_length _ _ (natDigits_length_le 4 _ ?_ (by norm_num))
    have : y.toNat ≤ 9999 := by omega
    omega
  have hmlen : (padDigits 2 m.toNat).length = 2 := by
    refine padDigits_length _ _ (natDigits_length_le 2 _ ?_ (by norm_num))
    have : m.toNat ≤ 99 := by omega
    omega
  rcases list_of_length_four _ hylen with ⟨a, b, c, d, hab⟩
  rcases list_of_length_two _ hmlen with ⟨e, f, hef⟩
  have hdig : ∀ c0 ∈ padDigits 4 y.toNat, c0.isDigit = true := padDigits_all_digit _ _
  have hdigm : ∀ c0 ∈ padDigits 2 m.toNat, c0.isDigit = true := padDigits_all_digit _ _
  rw [hab] at hdig
  rw [hef] at hdigm
  unfold formatDate
  rw [hy', hm', hab, hef]
  show dateWF (String.mk ([a, b, c, d] ++ '-' :: ([e, f] ++ ['-', '0', '1']))) = true
  simp only [List.cons_append, List.nil_append]
  unfold dateWF
  simp only []
  show (a.isDigit && b.isDigit && c.isDigit && d.isDigit && decide ('-' = '-')
    && e.isDigit && f.isDigit && decide ('-' = '-') && decide ('0' = '0')
    && decide ('1' = '1')) = true
  simp [hdig a (by simp), hdig b (by simp), hdig c (by simp), hdig d (by simp),
    hdigm e (by simp), hdigm f (by simp)]

/-- C5 (amended): a raw row fails to normalize exactly when one of the
four casts throws — date construction never fails, in particular absent
amount, order-number or product-code fields do not prevent insertion;
the stored `order_date` is the formatted `f"{year:04d}-{month:02d}-01"`
text with year defaulting to 2003 and month to 1 when those fields are
absent, and it has the `YYYY-MM-01` shape whenever the coerced year is
in `0..9999` and the coerced month in `0..99`. -/
theorem c5_order_date_wellformed (r : RawRow) :
    ((normalizeRow r).isSome ↔
      ¬(r.orderNumber = some none ∨ r.yearId = some none ∨ r.monthId = some none
        ∨ r.sales = some none))
    ∧ (∀ rec y m, normalizeRow r = some rec →
        coerceDflt r.yearId 2003 = some y → coerceDflt r.monthId 1 = some m →
        rec.order_date = formatDate y m
        ∧ (r.yearId = none → y = 2003)
        ∧ (r.monthId = none → m = 1)
        ∧ (0 ≤ y → y ≤ 9999 → 0 ≤ m → m ≤ 99 → dateWF rec.order_date = true)) := by
  constructor
  · rcases r with ⟨o, yi, mi, s, p⟩
    rcases o with _ | (_ | ov) <;> rcases yi with _ | (_ | yv) <;>
      rcases mi with _ | (_ | mv) <;> rcases s with _ | (_ | sv) <;>
      simp [normalizeRow, coerceOpt, coerceDflt]
  · intro rec y m hnorm hy hm
    have hrec : rec = SalesRecord.mk ((coerceOpt r.orderNumber).getD none) (formatDate y m)
        ((coerceOpt r.sales).getD none) r.productCode := by
      rcases hco : coerceOpt r.orderNumber with _ | oid
      · rw [normalizeRow] at hnorm
        simp [hco] at hnorm
      · rcases hcs : coerceOpt r.sales with _ | amt
        · simp [normalizeRow, hco, hy, hm, hcs] at hnorm
        · have : normalizeRow r = some ⟨oid, formatDate y m, amt, r.productCode⟩ := by
            simp [normalizeRow, hco, hy, hm, hcs]
          rw [this] at hnorm
          rcases Option.some_inj.mp hnorm with rfl
          simp [hco, hcs]
    refine ⟨by rw [hrec], ?_, ?_, ?_⟩
    · intro hnone
      rw [hnone] at hy
      simpa [coerceDflt] using hy.symm
    · intro hnone
      rw [hnone] at hm
      simpa [coerceDflt] using hm.symm
    · intro hy0 hy1 hm0 hm1
      rw [hrec]
      exact dateWF_formatDate y m hy0 hy1 hm0 hm1

/-- C5 counterexample: the row with `YEAR_ID = 12345` normalizes
successfully, but its stored `order_date`, `12345-01-01`, is not of the
`YYYY-MM-01` shape (five year digits). -/
theorem c5_counterexample :
    normalizeRow hugeYearRow = some (SalesRecord.mk none (formatDate 12345 1) none none)
    ∧ dateWF (formatDate 12345 1) = false := by
  exact ⟨rfl, rfl⟩

/-- C5 witness: the absent-order-number row normalizes; its date is
`formatDate 2004 1`, which has the `YYYY-MM-01` shape. -/
theorem c5_order_date_wellformed_witness :
    normalizeRow absentIdRow
      = some (SalesRecord.mk none (formatDate 2004 1) (some 100) (some "P"))
    ∧ (SalesRecord.mk none (formatDate 2004 1) (some 100) (some "P")).order_date
        = formatDate 2004 1
    ∧ dateWF (SalesRecord.mk none (formatDate 2004 1) (some 100) (some "P")).order_date
        = true := by
  have h := (c5_order_date_wellformed absentIdRow).2
    (SalesRecord.mk none (formatDate 2004 1) (some 100) (some "P")) 2004 1 rfl rfl rfl
  exact ⟨rfl, h.1, h.2.2.2 (by decide) (by decide) (by decide) (by decide)⟩

end Task6
